import Mathlib

/-!
Verification of the deduplicating ingestion-and-retention pipeline of the
jewish-studies-feed repository, shallowly embedded from
`src/rss_crawler.py`, `src/crossref_crawler.py` and `src/news_filter.py`.

Timestamps are modelled as `Option Int` (seconds since an arbitrary epoch):
`some t` is a string value that `pd.to_datetime` parses to the instant `t`,
`none` is a value that fails to parse (pandas `NaT`, produced by
`errors=coerce`).  Rows of the CSV memory files are modelled as records.
-/

def secondsPerDay : Int := 86400

/-- Python `\s` for the ASCII range, as used by `re.sub` and `str.strip`. -/
def isSpaceChar (c : Char) : Bool :=
  c = ' ' || c = '\t' || c = '\n' || c = '\r' || c = '\x0b' || c = '\x0c'

def stripChars (l : List Char) : List Char :=
  ((l.dropWhile isSpaceChar).reverse.dropWhile isSpaceChar).reverse

/-- Python `str.strip()`. -/
def pyStrip (s : String) : String := String.mk (stripChars s.data)

/-- One pass of `re.sub` with pattern `\s+` and replacement a single space:
the boolean flag records whether the previous character was whitespace. -/
def collapseWs : Bool → List Char → List Char
  | _, [] => []
  | prev, c :: cs =>
    if isSpaceChar c then
      if prev then collapseWs true cs else ' ' :: collapseWs true cs
    else c :: collapseWs false cs

/-- `RSSCrawler._clean_text`: collapse whitespace runs, then strip. -/
def clean_text (s : String) : String :=
  pyStrip (String.mk (collapseWs false s.data))

/-- One left-to-right pass of `re.sub` replacing each match of a `<`, one
or more non-`>` characters and a closing `>` by a single space.  The state
`none` is "outside a tag"; `some buf` is "inside a candidate tag opened by
a `<`", with `buf` the characters read since then, reversed.  A candidate
that reaches the end of input without a `>` is not a match and is emitted
literally, as is the two-character sequence of a `<` directly followed by
`>` (the pattern needs at least one character between them). -/
def removeTagsGo : Option (List Char) → List Char → List Char
  | none, [] => []
  | some buf, [] => '<' :: buf.reverse
  | none, c :: cs =>
    if c = '<' then removeTagsGo (some []) cs else c :: removeTagsGo none cs
  | some buf, c :: cs =>
    if c = '>' then
      if buf = [] then '<' :: '>' :: removeTagsGo none cs
      else ' ' :: removeTagsGo none cs
    else removeTagsGo (some (c :: buf)) cs

/-- Sort order used by `sort_values(by=scraped_at, ascending=False)`:
later timestamps first, unparseable (`NaT`) rows last. -/
def obsLe : Option Int → Option Int → Prop
  | some a, some b => b ≤ a
  | some _, none => True
  | none, some _ => False
  | none, none => True

instance obsLe.instDecidable : ∀ x y : Option Int, Decidable (obsLe x y)
  | some a, some b => inferInstanceAs (Decidable (b ≤ a))
  | some _, none => inferInstanceAs (Decidable True)
  | none, some _ => inferInstanceAs (Decidable False)
  | none, none => inferInstanceAs (Decidable True)

namespace MemLog

variable {α : Type}

/-- Row order of `sort_values` lifted to records through the observation
column `obs`. -/
def obsRel (obs : α → Option Int) (a b : α) : Prop := obsLe (obs a) (obs b)

instance (obs : α → Option Int) : DecidableRel (obsRel obs) :=
  fun _ _ => obsLe.instDecidable _ _

instance (obs : α → Option Int) : IsTotal α (obsRel obs) := by
  constructor
  intro a b
  unfold obsRel obsLe
  cases obs a <;> cases obs b <;> simp
  exact Int.le_total _ _

instance (obs : α → Option Int) : IsTrans α (obsRel obs) := by
  constructor
  intro a b c
  unfold obsRel obsLe
  cases obs a <;> cases obs b <;> cases obs c <;> simp
  exact fun h1 h2 => le_trans h2 h1

/-- `pandas.DataFrame.drop_duplicates(subset=[key], keep=first)`: walk the
rows in order, keeping a row only when its key was not seen before. -/
def dedupKey (key : α → String) : List String → List α → List α
  | _, [] => []
  | seen, x :: xs =>
    if key x ∈ seen then dedupKey key seen xs
    else x :: dedupKey key (key x :: seen) xs

/-- The retention filter `df[df[scraped_at] >= cutoff]`: a row with an
unparseable (`NaT`) observation never satisfies `>=` and is removed. -/
def prune (obs : α → Option Int) (cutoff : Int) (l : List α) : List α :=
  l.filter fun x =>
    match obs x with
    | some t => decide (cutoff ≤ t)
    | none => false

/-- `sort_values(by=scraped_at, ascending=False)`, modelled by a
deterministic comparison sort over the same order. -/
def sortObs (obs : α → Option Int) (l : List α) : List α :=
  List.insertionSort (obsRel obs) l

/-- The body of `save_articles`: concatenate the stored rows with the new
ones, drop duplicate keys keeping the first, sort by observation time
descending, and keep only rows at or after the retention cutoff. -/
def mergeSave (key : α → String) (obs : α → Option Int) (cutoff : Int)
    (store new : List α) : List α :=
  prune obs cutoff (sortObs obs (dedupKey key [] (store ++ new)))

end MemLog

/-- `RSSCrawler._clean_html`: remove HTML tags, collapse whitespace, decode
the six entities the source lists, then strip. -/
def clean_html (s : String) : String :=
  if s = "" then ""
  else
    let c1 := String.mk (removeTagsGo none s.data)
    let c2 := String.mk (collapseWs false c1.data)
    let c3 := (((((c2.replace "&nbsp;" " ").replace "&amp;" "&").replace
      "&lt;" "<").replace "&gt;" ">").replace "&quot;" "\"").replace
      "&#39;" ((Char.ofNat 39).toString)
    pyStrip c3

/-- A row of the news memory CSV `data/memory/news_log.csv`, i.e. the
article dict built in `RSSCrawler._crawl_single_feed`. -/
structure NewsArticle where
  title : String
  description : String
  link : String
  source : String
  author : String
  published : Option Int
  scraped_at : Option Int
  guid : String
deriving DecidableEq, Repr

/-- A row of the research memory CSV, i.e. the article dict built in
`CrossrefCrawler._extract_article_data`. -/
structure CrossrefArticle where
  doi : String
  title : String
  authors : String
  journal_name : String
  journal_abbrev : String
  issn : String
  volume : String
  issue : String
  pages : String
  abstract : String
  url : String
  published_online : Option Int
  published_print : Option Int
  published_date : Option Int
  subjects : String
  article_type : String
  scraped_at : Option Int
deriving DecidableEq, Repr

/-- Lines 317-328 of `RSSCrawler.save_articles`: concatenate the loaded
store with the new rows and `drop_duplicates(subset=[link], keep=first)`. -/
def RSSCrawler.mergeDedup (store new : List NewsArticle) : List NewsArticle :=
  MemLog.dedupKey (fun a => a.link) [] (store ++ new)

/-- `RSSCrawler.save_articles`: with no new articles the function returns
before touching the store; otherwise merge-dedup, sort by `scraped_at`
descending and keep only rows from the last 30 days. -/
def RSSCrawler.save_articles (store articles : List NewsArticle) (now : Int) :
    List NewsArticle :=
  if articles = [] then store
  else
    MemLog.mergeSave (fun a => a.link) (fun a => a.scraped_at)
      (now - 30 * secondsPerDay) store articles

/-- Lines 281-292 of `CrossrefCrawler.save_articles`: concatenate and
`drop_duplicates(subset=[doi], keep=first)`. -/
def CrossrefCrawler.mergeDedup (store new : List CrossrefArticle) :
    List CrossrefArticle :=
  MemLog.dedupKey (fun a => a.doi) [] (store ++ new)

/-- `CrossrefCrawler.save_articles`: same shape as the news variant with a
730-day retention horizon. -/
def CrossrefCrawler.save_articles (store articles : List CrossrefArticle)
    (now : Int) : List CrossrefArticle :=
  if articles = [] then store
  else
    MemLog.mergeSave (fun a => a.doi) (fun a => a.scraped_at)
      (now - 730 * secondsPerDay) store articles

/-- A feedparser entry as consumed by `_crawl_single_feed`.  `link` is the
URL attribute when present and truthy (the `entry.links` fallback of
`_get_entry_url` is folded into the same option); `published` is the result
of `_parse_entry_date`, `none` when no candidate date field parses;
`description` is the raw content picked by `_get_entry_description`. -/
structure RSSEntry where
  title : Option String
  link : Option String
  published : Option Int
  description : String
  author : String
  guid : Option String
deriving DecidableEq, Repr

/-- `RSSCrawler._get_entry_url`: the stripped entry link, `none` when the
entry has no usable link attribute. -/
def RSSCrawler.get_entry_url (e : RSSEntry) : Option String :=
  e.link.map pyStrip

/-- `RSSCrawler._get_entry_title`: a missing or falsy (empty) title becomes
the placeholder `Untitled`; otherwise the title is cleaned. -/
def RSSCrawler.get_entry_title (e : RSSEntry) : String :=
  match e.title with
  | some t => if t = "" then "Untitled" else clean_text t
  | none => "Untitled"

/-- The per-entry body of the loop in `RSSCrawler._crawl_single_feed`
(lines 77-105): skip when the URL is missing, empty or already known; skip
when a resolved publication date is older than the cutoff (entries with no
resolved date are kept); build the article dict; keep it only when both
title and link are truthy. -/
def RSSCrawler.process_entry (source : String) (existing_urls : List String)
    (cutoff now : Int) (e : RSSEntry) : Option NewsArticle :=
  match RSSCrawler.get_entry_url e with
  | none => none
  | some url =>
    if url = "" ∨ url ∈ existing_urls then none
    else if (match e.published with
             | some d => decide (d < cutoff)
             | none => false) then none
    else
      let article : NewsArticle :=
        { title := RSSCrawler.get_entry_title e
          description := clean_html e.description
          link := url
          source := source
          author := e.author
          published := e.published
          scraped_at := some now
          guid := e.guid.getD url }
      if article.title ≠ "" ∧ article.link ≠ "" then some article else none

/-- An `<item>` element as consumed by the fallback path
`RSSCrawler._crawl_with_requests`: each field is the `get_text(strip=True)`
of the corresponding child element, `none` when the element is absent;
`pubDate` is the parse result of the date element, `none` when absent or
unparseable. -/
structure XmlItem where
  title : Option String
  link : Option String
  description : String
  pubDate : Option Int
  author : String
deriving DecidableEq, Repr

/-- The per-item body of the loop in `RSSCrawler._crawl_with_requests`
(lines 134-176): title and link elements are both required; an empty or
already-known link is skipped; a resolved date older than the cutoff is
skipped while a missing date is kept; the item is then appended with no
further title check. -/
def RSSCrawler.process_xml_item (source : String)
    (existing_urls : List String) (cutoff now : Int) (it : XmlItem) :
    Option NewsArticle :=
  match it.title, it.link with
  | some title, some link =>
    if link = "" ∨ link ∈ existing_urls then none
    else if (match it.pubDate with
             | some d => decide (d < cutoff)
             | none => false) then none
    else
      some
        { title := clean_text title
          description := clean_html it.description
          link := pyStrip link
          source := source
          author := it.author
          published := it.pubDate
          scraped_at := some now
          guid := pyStrip link }
  | _, _ => none

/-- The `title` value of a Crossref work: a list of strings, a bare string,
or anything else (absent, the default `[]`, a non-string scalar). -/
inductive CrTitle where
  | list (l : List String)
  | str (s : String)
  | other
deriving DecidableEq, Repr

/-- One author dict of a Crossref work; `given` and `family` default to the
empty string when the dict lacks them. -/
structure CrAuthor where
  given : String
  family : String
deriving DecidableEq, Repr

/-- A Crossref work as consumed by `_extract_article_data`.  The three date
fields carry the results of `_extract_date` on `published-online`,
`published-print` and `created` (`none` when the date-parts are absent or
invalid). -/
structure CrossrefWork where
  doi : String
  title : CrTitle
  author : List CrAuthor
  published_online : Option Int
  published_print : Option Int
  created : Option Int
  abstract : String
  url : String
  volume : String
  issue : String
  pages : String
  subject : List String
  work_type : String
deriving DecidableEq, Repr

/-- `CrossrefCrawler._extract_title`: first element of a nonempty title
list, or a bare string, stripped; anything else resolves to the empty
string. -/
def CrossrefCrawler.extract_title (w : CrossrefWork) : String :=
  match w.title with
  | .list (t :: _) => pyStrip t
  | .list [] => ""
  | .str s => pyStrip s
  | .other => ""

/-- `CrossrefCrawler._extract_authors`: `Family, Given` when both parts are
present, else whichever part exists, skipping authors with neither; joined
with a semicolon and space. -/
def CrossrefCrawler.extract_authors (authors : List CrAuthor) : String :=
  String.intercalate "; " (authors.filterMap fun a =>
    let g := pyStrip a.given
    let f := pyStrip a.family
    if f ≠ "" then some (if g ≠ "" then f ++ ", " ++ g else f)
    else if g ≠ "" then some g
    else none)

/-- The abstract cleanup inside `_extract_article_data`: strip, and when
nonempty remove HTML tags and collapse whitespace. -/
def CrossrefCrawler.clean_abstract (raw : String) : String :=
  let a := pyStrip raw
  if a = "" then ""
  else pyStrip (String.mk (collapseWs false (removeTagsGo none a.data)))

/-- `CrossrefCrawler._extract_article_data` (lines 133-208): reject when
the DOI or the resolved title is empty; resolve the publication date by the
online-then-print-then-created precedence; fall back to a doi.org URL. -/
def CrossrefCrawler.extract_article_data (w : CrossrefWork)
    (journal_name journal_abbrev issn : String) (now : Int) :
    Option CrossrefArticle :=
  let doi := pyStrip w.doi
  if doi = "" then none
  else
    let title := CrossrefCrawler.extract_title w
    if title = "" then none
    else
      let pub_date :=
        (w.published_online.orElse fun _ =>
          w.published_print.orElse fun _ => w.created)
      let url0 := pyStrip w.url
      some
        { doi := doi
          title := title
          authors := CrossrefCrawler.extract_authors w.author
          journal_name := journal_name
          journal_abbrev := journal_abbrev
          issn := issn
          volume := pyStrip w.volume
          issue := pyStrip w.issue
          pages := pyStrip w.pages
          abstract := CrossrefCrawler.clean_abstract w.abstract
          url := if url0 = "" then "https://doi.org/" ++ doi else url0
          published_online := w.published_online
          published_print := w.published_print
          published_date := pub_date
          subjects := String.intercalate "; " w.subject
          article_type := pyStrip w.work_type
          scraped_at := some now }

/-- One row of the feeds configuration CSV. -/
structure FeedRow where
  source : String
  url : String
deriving DecidableEq, Repr

/-- The try block around one source in the crawl loops: a successful fetch
extends the accumulated result with the source's articles; an exception is
caught and the accumulator is returned unchanged (the loop continues). -/
def fetchStep {sigma alpha : Type} (fetch : sigma → Except String (List alpha))
    (acc : List alpha) (f : sigma) : List alpha :=
  match fetch f with
  | .ok articles => acc ++ articles
  | .error _ => acc

/-- What one source contributes to the crawl result: its articles on
success, nothing on failure. -/
def fetchResult {sigma alpha : Type}
    (fetch : sigma → Except String (List alpha)) (f : sigma) : List alpha :=
  match fetch f with
  | .ok articles => articles
  | .error _ => []

/-- `RSSCrawler.crawl_all_feeds` (lines 29-56): each feed is fetched inside
its own try block; a source whose fetch raises contributes nothing and the
loop continues with the next source.  The per-source fetch-and-normalize
step is the external capability `fetch`. -/
def RSSCrawler.crawl_all_feeds
    (fetch : FeedRow → Except String (List NewsArticle))
    (feeds : List FeedRow) : List NewsArticle :=
  feeds.foldl (fetchStep fetch) []

/-- One row of the journals configuration CSV. -/
structure JournalRow where
  issn : String
  journal_name : String
  journal_abbrev : String
  active : Bool
deriving DecidableEq, Repr

/-- `CrossrefCrawler.crawl_all_journals` (lines 36-68): only active
journals are crawled (the constructor filters `active == True`); each
journal is fetched inside its own try block and a failure is skipped. -/
def CrossrefCrawler.crawl_all_journals
    (fetch : JournalRow → Except String (List CrossrefArticle))
    (journals : List JournalRow) : List CrossrefArticle :=
  (journals.filter fun j => j.active).foldl (fetchStep fetch) []

/-- Outcome of `pd.read_csv` on the memory file: the file may be absent
(`FileNotFoundError`), present but empty (`EmptyDataError`), present but
unreadable (any other exception: malformed CSV, missing key column), or
readable with its list of rows. -/
inductive ReadResult (α : Type) where
  | missing
  | empty
  | corrupt
  | ok (rows : α)
deriving DecidableEq, Repr

/-- `RSSCrawler._load_existing_urls` (lines 299-309): missing and empty
files start fresh with no known keys; the final generic handler catches
every other exception, logs it, and also returns the empty set. -/
def RSSCrawler.load_existing_urls (r : ReadResult (List NewsArticle)) :
    List String :=
  match r with
  | .missing => []
  | .empty => []
  | .corrupt => []
  | .ok rows => rows.map fun a => a.link

/-- `CrossrefCrawler._load_existing_dois` (lines 263-273): identical
structure over the `doi` column. -/
def CrossrefCrawler.load_existing_dois (r : ReadResult (List CrossrefArticle)) :
    List String :=
  match r with
  | .missing => []
  | .empty => []
  | .corrupt => []
  | .ok rows => rows.map fun a => a.doi

/-- Order-preserving list of distinct strings, as `Series.unique`. -/
def uniqueStrings (l : List String) : List String :=
  MemLog.dedupKey (fun s => s) [] l

/-- The JSON document produced by `RSSCrawler.generate_output_json`, minus
the `update` stamp derived from `now`. -/
structure NewsOutput where
  articles_count : Nat
  sources : List (String × List NewsArticle)
  all_articles : List NewsArticle
deriving DecidableEq, Repr

/-- `RSSCrawler.generate_output_json` (lines 344-398): a missing or empty
store yields the empty snapshot; otherwise `scraped_at` is parsed with
`format=ISO8601` and NO `errors=coerce`, so an unparseable value raises
out of the function (only `FileNotFoundError` and `EmptyDataError` are
caught); the window filter keeps rows with `scraped_at >= now - days_back`
and applies no upper bound (the same `>=` filter as the retention prune,
hence modelled by `MemLog.prune`). -/
def RSSCrawler.generate_output_json (store : Option (List NewsArticle))
    (now days_back : Int) : Except String NewsOutput :=
  match store with
  | none => .ok { articles_count := 0, sources := [], all_articles := [] }
  | some df =>
    if df.all (fun r => r.scraped_at.isSome) then
      let recent := MemLog.prune (fun r => r.scraped_at)
        (now - days_back * secondsPerDay) df
      .ok
        { articles_count := recent.length
          sources := (uniqueStrings (recent.map fun a => a.source)).map
            fun s => (s, recent.filter fun a => a.source == s)
          all_articles := recent }
    else .error "could not parse scraped_at with format ISO8601"

/-- The JSON document produced by `CrossrefCrawler.generate_output_json`,
minus the `update` stamp. -/
structure CrossrefOutput where
  articles_count : Nat
  period_days : Int
  journals : List (String × List CrossrefArticle)
  all_articles : List CrossrefArticle
deriving DecidableEq, Repr

/-- `CrossrefCrawler.generate_output_json` (lines 313-374): as the news
variant, but `scraped_at` is parsed with `errors=coerce`, so unparseable
rows become `NaT`, fail the `>=` comparison and are silently excluded
instead of raising. -/
def CrossrefCrawler.generate_output_json
    (store : Option (List CrossrefArticle)) (now days_back : Int) :
    CrossrefOutput :=
  match store with
  | none =>
    { articles_count := 0, period_days := days_back, journals := []
      all_articles := [] }
  | some df =>
    let recent := MemLog.prune (fun r => r.scraped_at)
      (now - days_back * secondsPerDay) df
    { articles_count := recent.length
      period_days := days_back
      journals := (uniqueStrings (recent.map fun a => a.journal_name)).map
        fun j => (j, recent.filter fun a => a.journal_name == j)
      all_articles := recent }

/-- The batch slicing of `_filter_articles_with_ai_batched`:
`articles[start:start+n]` for each batch. -/
def chunksOf {α : Type} : Nat → List α → List (List α)
  | 0, _ => []
  | _, [] => []
  | n + 1, x :: xs =>
    (x :: xs).take (n + 1) :: chunksOf (n + 1) ((x :: xs).drop (n + 1))
termination_by _ l => l.length
decreasing_by
  simp only [List.drop_succ_cons, List.length_cons, List.length_drop]
  omega

def NewsFilter.max_retries : Nat := 3

def NewsFilter.batch_size : Nat := 100

/-- `NewsFilter._call_anthropic_api` (lines 227-287): up to `fuel` attempts
starting at `attempt`; the external call together with the JSON-array
extraction and integer-list validation is the capability `responses`
(`none` is an API error or an unparseable reply).  The first successful
attempt returns its index list; exhausting the attempts returns the empty
list, and no failure escapes. -/
def NewsFilter.call_anthropic_api (responses : Nat → Option (List Int)) :
    Nat → Nat → List Int
  | 0, _ => []
  | fuel + 1, attempt =>
    match responses attempt with
    | some idxs => idxs
    | none => NewsFilter.call_anthropic_api responses fuel (attempt + 1)

/-- The index extraction after each API call (lines 138-142): each returned
index is taken relative to the batch and used only when inside bounds. -/
def NewsFilter.filterBatch (batch : List NewsArticle) (idxs : List Int) :
    List NewsArticle :=
  idxs.filterMap fun i =>
    if 0 ≤ i ∧ i < (batch.length : Int) then batch[i.toNat]? else none

/-- The kept records of each batch, in batch order: batch number `b` uses
the retry sequence `responses b`. -/
def NewsFilter.perBatchKept (responses : Nat → Nat → Option (List Int))
    (articles : List NewsArticle) : List (List NewsArticle) :=
  ((chunksOf NewsFilter.batch_size articles).enum).map fun p =>
    NewsFilter.filterBatch p.2
      (NewsFilter.call_anthropic_api (responses p.1) NewsFilter.max_retries 0)

/-- `NewsFilter._filter_articles_with_ai_batched` (lines 111-150): empty
input short-circuits; otherwise the per-batch results are concatenated in
batch order. -/
def NewsFilter.filter_articles_with_ai_batched
    (responses : Nat → Nat → Option (List Int))
    (articles : List NewsArticle) : List NewsArticle :=
  if articles = [] then []
  else (NewsFilter.perBatchKept responses articles).flatten

theorem MemLog.mem_of_mem_dedupKey {α : Type} (key : α → String) :
    ∀ (l : List α) (seen : List String) (x : α),
      x ∈ MemLog.dedupKey key seen l → x ∈ l := by
  intro l
  induction l with
  | nil => intro seen x h; simp [MemLog.dedupKey] at h
  | cons a as ih =>
    intro seen x h
    simp only [MemLog.dedupKey] at h
    by_cases hk : key a ∈ seen
    · rw [if_pos hk] at h
      exact List.mem_cons_of_mem _ (ih seen x h)
    · rw [if_neg hk] at h
      rcases List.mem_cons.mp h with h1 | h2
      · exact h1 ▸ List.mem_cons_self _ _
      · exact List.mem_cons_of_mem _ (ih _ x h2)

theorem MemLog.filter_dedupKey {α : Type} (key : α → String) (k : String) :
    ∀ (l : List α) (seen : List String),
      (MemLog.dedupKey key seen l).filter (fun x => key x == k)
        = if k ∈ seen then [] else (l.filter (fun x => key x == k)).take 1 := by
  intro l
  induction l with
  | nil => intro seen; simp [MemLog.dedupKey]
  | cons a as ih =>
    intro seen
    simp only [MemLog.dedupKey]
    by_cases hk : key a ∈ seen
    · rw [if_pos hk, ih seen]
      by_cases hks : k ∈ seen
      · simp [hks]
      · have hne : ¬(key a == k) := by
          simp only [beq_iff_eq]
          intro he
          exact hks (he ▸ hk)
        simp [hks, List.filter_cons, hne]
    · rw [if_neg hk]
      by_cases hak : key a = k
      · subst hak
        have htail : (MemLog.dedupKey key (key a :: seen) as).filter
            (fun x => key x == key a) = [] := by
          rw [ih (key a :: seen)]
          simp
        simp [List.filter_cons, htail, hk]
      · have hne : ¬(key a == k) := by simpa using hak
        rw [List.filter_cons, List.filter_cons]
        simp only [hne, if_neg, Bool.false_eq_true, not_false_iff, ite_false]
        rw [ih (key a :: seen)]
        by_cases hks : k ∈ seen
        · simp [hks, List.mem_cons]
        · have : k ∉ key a :: seen := by
            intro hm
            rcases List.mem_cons.mp hm with h1 | h2
            exacts [hak h1.symm, hks h2]
          simp [hks, this]

theorem MemLog.dedupKey_pairwise_aux {α : Type} (key : α → String) :
    ∀ (l : List α) (seen : List String),
      ((MemLog.dedupKey key seen l).Pairwise fun a b => key a ≠ key b)
      ∧ ∀ x ∈ MemLog.dedupKey key seen l, key x ∉ seen := by
  intro l
  induction l with
  | nil => intro seen; simp [MemLog.dedupKey]
  | cons a as ih =>
    intro seen
    simp only [MemLog.dedupKey]
    by_cases hk : key a ∈ seen
    · rw [if_pos hk]; exact ih seen
    · rw [if_neg hk]
      obtain ⟨hp, hs⟩ := ih (key a :: seen)
      refine ⟨List.Pairwise.cons ?_ hp, ?_⟩
      · intro y hy he
        exact hs y hy (he ▸ List.mem_cons_self _ _)
      · intro x hx
        rcases List.mem_cons.mp hx with h1 | h2
        · exact h1 ▸ hk
        · exact fun hmem => hs x h2 (List.mem_cons_of_mem _ hmem)

theorem MemLog.exists_key_dedupKey {α : Type} (key : α → String) :
    ∀ (l : List α) (seen : List String) (x : α), x ∈ l → key x ∉ seen →
      ∃ y ∈ MemLog.dedupKey key seen l, key y = key x := by
  intro l
  induction l with
  | nil => intro seen x hx; simp at hx
  | cons a as ih =>
    intro seen x hx hseen
    simp only [MemLog.dedupKey]
    by_cases hk : key a ∈ seen
    · rw [if_pos hk]
      have hxas : x ∈ as := by
        rcases List.mem_cons.mp hx with h1 | h2
        · exact absurd (h1 ▸ hk) hseen
        · exact h2
      exact ih seen x hxas hseen
    · rw [if_neg hk]
      by_cases hkey : key x = key a
      · exact ⟨a, List.mem_cons_self _ _, hkey.symm⟩
      · have hxas : x ∈ as := by
          rcases List.mem_cons.mp hx with h1 | h2
          · exact absurd (h1 ▸ rfl) hkey
          · exact h2
        have hseen2 : key x ∉ key a :: seen := by
          intro hmem
          rcases List.mem_cons.mp hmem with h1 | h2
          exacts [hkey h1, hseen h2]
        obtain ⟨y, hy, hkeq⟩ := ih (key a :: seen) x hxas hseen2
        exact ⟨y, List.mem_cons_of_mem _ hy, hkeq⟩

theorem MemLog.dedupKey_eq_nil {α : Type} (key : α → String)
    (seen : List String) :
    ∀ R : List α, (∀ r ∈ R, key r ∈ seen) →
      MemLog.dedupKey key seen R = [] := by
  intro R
  induction R with
  | nil => intro _; simp [MemLog.dedupKey]
  | cons a as ih =>
    intro h
    simp only [MemLog.dedupKey]
    rw [if_pos (h a (List.mem_cons_self _ _))]
    exact ih fun r hr => h r (List.mem_cons_of_mem _ hr)

theorem MemLog.dedupKey_append_eq {α : Type} (key : α → String) :
    ∀ (D : List α) (seen : List String) (R : List α),
      (∀ d ∈ D, key d ∉ seen) →
      (D.Pairwise fun a b => key a ≠ key b) →
      (∀ r ∈ R, key r ∈ seen ∨ ∃ d ∈ D, key d = key r) →
      MemLog.dedupKey key seen (D ++ R) = D := by
  intro D
  induction D with
  | nil =>
    intro seen R _ _ h3
    refine MemLog.dedupKey_eq_nil key seen R fun r hr => ?_
    rcases h3 r hr with h | ⟨d, hd, _⟩
    · exact h
    · simp at hd
  | cons d D2 ih =>
    intro seen R h1 h2 h3
    simp only [List.cons_append, MemLog.dedupKey]
    rw [if_neg (h1 d (List.mem_cons_self _ _))]
    congr 1
    refine ih (key d :: seen) R ?_ (List.pairwise_cons.mp h2).2 ?_
    · intro d2 hd2 hmem
      rcases List.mem_cons.mp hmem with h1' | h2'
      · exact (List.pairwise_cons.mp h2).1 d2 hd2 h1'.symm
      · exact h1 d2 (List.mem_cons_of_mem _ hd2) h2'
    · intro r hr
      rcases h3 r hr with hseen | ⟨d', hd', hkeq⟩
      · exact Or.inl (List.mem_cons_of_mem _ hseen)
      · rcases List.mem_cons.mp hd' with h1' | h2'
        · exact Or.inl (by rw [← hkeq, h1']; exact List.mem_cons_self _ _)
        · exact Or.inr ⟨d', h2', hkeq⟩

theorem MemLog.mem_prune {α : Type} (obs : α → Option Int) (cutoff : Int)
    (l : List α) (x : α) :
    x ∈ MemLog.prune obs cutoff l ↔
      x ∈ l ∧ ∃ t, obs x = some t ∧ cutoff ≤ t := by
  simp only [MemLog.prune, List.mem_filter]
  constructor
  · rintro ⟨hmem, hp⟩
    refine ⟨hmem, ?_⟩
    rcases hob : obs x with _ | t
    · rw [hob] at hp; simp at hp
    · rw [hob] at hp
      simp only [decide_eq_true_eq] at hp
      exact ⟨t, rfl, hp⟩
  · rintro ⟨hmem, t, hob, hle⟩
    refine ⟨hmem, ?_⟩
    rw [hob]
    simpa using hle

theorem MemLog.prune_eq_self {α : Type} (obs : α → Option Int) (cutoff : Int)
    (l : List α) (h : ∀ x ∈ l, ∃ t, obs x = some t ∧ cutoff ≤ t) :
    MemLog.prune obs cutoff l = l := by
  refine List.filter_eq_self.mpr fun a ha => ?_
  obtain ⟨t, hob, hle⟩ := h a ha
  rw [hob]
  simpa using hle

theorem MemLog.mem_sortObs {α : Type} (obs : α → Option Int) (l : List α)
    (x : α) : x ∈ MemLog.sortObs obs l ↔ x ∈ l :=
  List.mem_insertionSort _

theorem MemLog.keyNe_symm {α : Type} (key : α → String) :
    ∀ {x y : α}, key x ≠ key y → key y ≠ key x :=
  fun h hk => h hk.symm

theorem MemLog.mem_mergeSave {α : Type} (key : α → String)
    (obs : α → Option Int) (cutoff : Int) (store new : List α) (x : α) :
    x ∈ MemLog.mergeSave key obs cutoff store new ↔
      x ∈ MemLog.dedupKey key [] (store ++ new) ∧
        ∃ t, obs x = some t ∧ cutoff ≤ t := by
  unfold MemLog.mergeSave
  rw [MemLog.mem_prune, MemLog.mem_sortObs]

theorem MemLog.mergeSave_pairwise {α : Type} (key : α → String)
    (obs : α → Option Int) (cutoff : Int) (store new : List α) :
    (MemLog.mergeSave key obs cutoff store new).Pairwise
      fun a b => key a ≠ key b := by
  have hD := (MemLog.dedupKey_pairwise_aux key (store ++ new) []).1
  have hS : (MemLog.sortObs obs
      (MemLog.dedupKey key [] (store ++ new))).Pairwise
      (fun a b => key a ≠ key b) :=
    (List.Perm.pairwise_iff (MemLog.keyNe_symm key)
      (List.perm_insertionSort _ _)).mpr hD
  exact hS.filter _

theorem MemLog.mergeSave_idem {α : Type} (key : α → String)
    (obs : α → Option Int) (cutoff : Int) (store new : List α)
    (h : ∀ x ∈ store ++ new, ∃ t, obs x = some t ∧ cutoff ≤ t) :
    MemLog.mergeSave key obs cutoff (MemLog.mergeSave key obs cutoff store new)
      new = MemLog.mergeSave key obs cutoff store new := by
  have hSmem : ∀ x ∈ MemLog.sortObs obs
      (MemLog.dedupKey key [] (store ++ new)), x ∈ store ++ new := by
    intro x hx
    exact MemLog.mem_of_mem_dedupKey key _ _ x
      ((MemLog.mem_sortObs obs _ x).mp hx)
  have h1 : MemLog.mergeSave key obs cutoff store new
      = MemLog.sortObs obs (MemLog.dedupKey key [] (store ++ new)) := by
    unfold MemLog.mergeSave
    exact MemLog.prune_eq_self _ _ _ fun x hx => h x (hSmem x hx)
  rw [h1]
  have hpair : (MemLog.sortObs obs
      (MemLog.dedupKey key [] (store ++ new))).Pairwise
      (fun a b => key a ≠ key b) :=
    (List.Perm.pairwise_iff (MemLog.keyNe_symm key)
      (List.perm_insertionSort _ _)).mpr
      (MemLog.dedupKey_pairwise_aux key (store ++ new) []).1
  have hcover : ∀ r ∈ new, key r ∈ ([] : List String) ∨
      ∃ d ∈ MemLog.sortObs obs (MemLog.dedupKey key [] (store ++ new)),
        key d = key r := by
    intro r hr
    obtain ⟨y, hy, hkeq⟩ := MemLog.exists_key_dedupKey key (store ++ new) []
      r (List.mem_append_right _ hr) (by simp)
    exact Or.inr ⟨y, (MemLog.mem_sortObs obs _ y).mpr hy, hkeq⟩
  have h2 : MemLog.dedupKey key []
      (MemLog.sortObs obs (MemLog.dedupKey key [] (store ++ new)) ++ new)
      = MemLog.sortObs obs (MemLog.dedupKey key [] (store ++ new)) :=
    MemLog.dedupKey_append_eq key _ [] new (by simp) hpair hcover
  have hsorted : List.Sorted (MemLog.obsRel obs)
      (MemLog.sortObs obs (MemLog.dedupKey key [] (store ++ new))) :=
    List.sorted_insertionSort _ _
  have h3 : MemLog.sortObs obs
      (MemLog.sortObs obs (MemLog.dedupKey key [] (store ++ new)))
      = MemLog.sortObs obs (MemLog.dedupKey key [] (store ++ new)) :=
    hsorted.insertionSort_eq
  unfold MemLog.mergeSave
  rw [h2, h3]
  exact MemLog.prune_eq_self _ _ _ fun x hx => h x (hSmem x hx)

/-- C1: merging (concatenating new records after the existing log and
deduplicating by dedup key, as both `save_articles` bodies do) retains, for
a colliding dedup key, the first-seen copy: when the existing store holds
exactly the entry `e` under key `k` and a new record `r` with the same key,
different fields and a later `observed_at` arrives, the merged store holds
exactly one entry for `k`, namely `e` with its original fields.  Stated for
the news log (key `link`) and the research log (key `doi`). -/
theorem C1_first_seen_wins :
    (∀ (store new : List NewsArticle) (e r : NewsArticle) (k : String)
        (te tr : Int),
      store.filter (fun a => a.link == k) = [e] →
      r ∈ new → r.link = k → r ≠ e →
      e.scraped_at = some te → r.scraped_at = some tr → te ≤ tr →
      (RSSCrawler.mergeDedup store new).filter (fun a => a.link == k) = [e])
    ∧
    (∀ (store new : List CrossrefArticle) (e r : CrossrefArticle)
        (k : String) (te tr : Int),
      store.filter (fun a => a.doi == k) = [e] →
      r ∈ new → r.doi = k → r ≠ e →
      e.scraped_at = some te → r.scraped_at = some tr → te ≤ tr →
      (CrossrefCrawler.mergeDedup store new).filter
        (fun a => a.doi == k) = [e]) := by
  constructor
  · intro store new e r k te tr hstore _ _ _ _ _ _
    unfold RSSCrawler.mergeDedup
    rw [MemLog.filter_dedupKey]
    simp [List.filter_append, hstore]
  · intro store new e r k te tr hstore _ _ _ _ _ _
    unfold CrossrefCrawler.mergeDedup
    rw [MemLog.filter_dedupKey]
    simp [List.filter_append, hstore]

def c1Paper : NewsArticle :=
  { title := "Paper", description := "", link := "https://doi.org/10/x"
    source := "J", author := "", published := none, scraped_at := some 0
    guid := "g" }

def c1PaperV2 : NewsArticle :=
  { title := "Paper v2", description := "", link := "https://doi.org/10/x"
    source := "J", author := "", published := none, scraped_at := some 100
    guid := "g" }

theorem C1_witness :
    (RSSCrawler.mergeDedup [c1Paper] [c1PaperV2]).filter
      (fun a => a.link == "https://doi.org/10/x") = [c1Paper] :=
  C1_first_seen_wins.1 [c1Paper] [c1PaperV2] c1Paper c1PaperV2
    "https://doi.org/10/x" 0 100 (by decide) (by decide) (by decide)
    (by decide) (by decide) (by decide) (by decide)

/-- C2: after the prune step inside `save_articles` (which runs whenever
there are new articles), every persisted row has a parseable `scraped_at`
at or after `now - N` (N = 30 days for news, 730 days for research), and
every row of the merged-deduplicated store whose `scraped_at` is within the
horizon is still present (no false eviction). -/
theorem C2_retention_bound :
    (∀ (store articles : List NewsArticle) (now : Int), articles ≠ [] →
      (∀ x ∈ RSSCrawler.save_articles store articles now,
        ∃ t, x.scraped_at = some t ∧ now - 30 * secondsPerDay ≤ t)
      ∧ ∀ x ∈ RSSCrawler.mergeDedup store articles,
          (∃ t, x.scraped_at = some t ∧ now - 30 * secondsPerDay ≤ t) →
          x ∈ RSSCrawler.save_articles store articles now)
    ∧
    (∀ (store articles : List CrossrefArticle) (now : Int), articles ≠ [] →
      (∀ x ∈ CrossrefCrawler.save_articles store articles now,
        ∃ t, x.scraped_at = some t ∧ now - 730 * secondsPerDay ≤ t)
      ∧ ∀ x ∈ CrossrefCrawler.mergeDedup store articles,
          (∃ t, x.scraped_at = some t ∧ now - 730 * secondsPerDay ≤ t) →
          x ∈ CrossrefCrawler.save_articles store articles now) := by
  constructor
  · intro store articles now h
    constructor
    · intro x hx
      unfold RSSCrawler.save_articles at hx
      rw [if_neg h] at hx
      exact ((MemLog.mem_mergeSave _ _ _ _ _ x).mp hx).2
    · intro x hx hex
      unfold RSSCrawler.mergeDedup at hx
      unfold RSSCrawler.save_articles
      rw [if_neg h]
      exact (MemLog.mem_mergeSave _ _ _ _ _ x).mpr ⟨hx, hex⟩
  · intro store articles now h
    constructor
    · intro x hx
      unfold CrossrefCrawler.save_articles at hx
      rw [if_neg h] at hx
      exact ((MemLog.mem_mergeSave _ _ _ _ _ x).mp hx).2
    · intro x hx hex
      unfold CrossrefCrawler.mergeDedup at hx
      unfold CrossrefCrawler.save_articles
      rw [if_neg h]
      exact (MemLog.mem_mergeSave _ _ _ _ _ x).mpr ⟨hx, hex⟩

def c2Old : NewsArticle :=
  { title := "Old", description := "", link := "http://old", source := "S"
    author := "", published := none, scraped_at := some 0, guid := "g" }

def c2Recent : NewsArticle :=
  { title := "Recent", description := "", link := "http://recent"
    source := "S", author := "", published := none
    scraped_at := some 3456000, guid := "g" }

theorem C2_witness :
    c2Recent ∈ RSSCrawler.save_articles [c2Old] [c2Recent] 3456000 :=
  (C2_retention_bound.1 [c2Old] [c2Recent] 3456000 (by decide)).2 c2Recent
    (by decide) ⟨3456000, rfl, by decide⟩

def c3Old : NewsArticle :=
  { title := "Paper", description := "", link := "k", source := "s"
    author := "", published := none, scraped_at := some 0, guid := "g" }

def c3New : NewsArticle :=
  { title := "Paper v2", description := "", link := "k", source := "s"
    author := "", published := none, scraped_at := some 3456000, guid := "g" }

/-- C3 counterexample: with the store holding a 40-day-old entry under key
`k` and the new record set holding a fresh record under the same key,
merging once keeps the old copy (first seen) and then prunes it, leaving
the store empty; merging the same set a second time with the same `now`
re-inserts the fresh record.  The two results differ, so the merge
performed by `save_articles` is not idempotent as claimed. -/
theorem C3_counterexample :
    RSSCrawler.save_articles
        (RSSCrawler.save_articles [c3Old] [c3New] 3456000) [c3New] 3456000
      ≠ RSSCrawler.save_articles [c3Old] [c3New] 3456000 := by decide

/-- C3 amended: merging the same record set twice with the same `now`
yields the same store as merging it once, provided every record involved
(stored or new) has a parseable `observed_at` within the retention horizon,
i.e. provided the prune step removes nothing; without that proviso a key
whose first-seen copy is pruned can re-enter from the record set on the
second merge (see the counterexample).  The no-duplicate-key invariant
holds unconditionally whenever the merge runs.  Stated for the news log
(key `link`, 30 days) and the research log (key `doi`, 730 days). -/
theorem C3_idempotent_amended :
    (∀ (store articles : List NewsArticle) (now : Int), articles ≠ [] →
      (∀ x ∈ store ++ articles,
        ∃ t, x.scraped_at = some t ∧ now - 30 * secondsPerDay ≤ t) →
      RSSCrawler.save_articles (RSSCrawler.save_articles store articles now)
          articles now = RSSCrawler.save_articles store articles now)
    ∧ (∀ (store articles : List NewsArticle) (now : Int), articles ≠ [] →
        (RSSCrawler.save_articles store articles now).Pairwise
          fun a b => a.link ≠ b.link)
    ∧ (∀ (store articles : List CrossrefArticle) (now : Int), articles ≠ [] →
      (∀ x ∈ store ++ articles,
        ∃ t, x.scraped_at = some t ∧ now - 730 * secondsPerDay ≤ t) →
      CrossrefCrawler.save_articles
          (CrossrefCrawler.save_articles store articles now) articles now
        = CrossrefCrawler.save_articles store articles now)
    ∧ (∀ (store articles : List CrossrefArticle) (now : Int),
        articles ≠ [] →
        (CrossrefCrawler.save_articles store articles now).Pairwise
          fun a b => a.doi ≠ b.doi) := by
  refine ⟨?_, ?_, ?_, ?_⟩
  · intro store articles now h hin
    unfold RSSCrawler.save_articles
    rw [if_neg h, if_neg h]
    exact MemLog.mergeSave_idem _ _ _ _ _ hin
  · intro store articles now h
    unfold RSSCrawler.save_articles
    rw [if_neg h]
    exact MemLog.mergeSave_pairwise _ _ _ _ _
  · intro store articles now h hin
    unfold CrossrefCrawler.save_articles
    rw [if_neg h, if_neg h]
    exact MemLog.mergeSave_idem _ _ _ _ _ hin
  · intro store articles now h
    unfold CrossrefCrawler.save_articles
    rw [if_neg h]
    exact MemLog.mergeSave_pairwise _ _ _ _ _

def c3Wa : NewsArticle :=
  { title := "A", description := "", link := "a", source := "s"
    author := "", published := none, scraped_at := some 50, guid := "g" }

def c3Wb : NewsArticle :=
  { title := "B", description := "", link := "b", source := "s"
    author := "", published := none, scraped_at := some 100, guid := "g" }

theorem C3_witness :
    RSSCrawler.save_articles (RSSCrawler.save_articles [c3Wa] [c3Wb] 100)
        [c3Wb] 100
      = RSSCrawler.save_articles [c3Wa] [c3Wb] 100 :=
  C3_idempotent_amended.1 [c3Wa] [c3Wb] 100 (by decide) (by
    intro x hx
    simp only [List.cons_append, List.nil_append, List.mem_cons,
      List.not_mem_nil, or_false] at hx
    rcases hx with h | h
    · exact h ▸ ⟨50, rfl, by decide⟩
    · exact h ▸ ⟨100, rfl, by decide⟩)

theorem foldlFetch_eq {sigma alpha : Type}
    (fetch : sigma → Except String (List alpha)) :
    ∀ (rows : List sigma) (acc : List alpha),
      rows.foldl (fetchStep fetch) acc
        = acc ++ (rows.map (fetchResult fetch)).flatten := by
  intro rows
  induction rows with
  | nil => intro acc; simp
  | cons f fs ih =>
    intro acc
    cases hf : fetch f <;>
      simp [List.foldl_cons, fetchStep, fetchResult, hf, ih,
        List.append_assoc]

/-- C4: source isolation in the crawl loops.  The crawl over a source list
equals the concatenation of the per-source results, where a source whose
fetch raises contributes the empty list and every succeeding source
contributes all its records, so no failure aborts the run; in particular
with source A failing and source B succeeding the result is exactly B's
records.  The journal crawl additionally restricts to active journals. -/
theorem C4_source_isolation :
    (∀ (fetch : FeedRow → Except String (List NewsArticle))
        (feeds : List FeedRow),
      RSSCrawler.crawl_all_feeds fetch feeds
        = (feeds.map (fetchResult fetch)).flatten)
    ∧ (∀ (fetch : FeedRow → Except String (List NewsArticle))
        (A B : FeedRow) (err : String) (bs : List NewsArticle),
      fetch A = .error err → fetch B = .ok bs →
      RSSCrawler.crawl_all_feeds fetch [A, B] = bs)
    ∧ (∀ (fetch : JournalRow → Except String (List CrossrefArticle))
        (journals : List JournalRow),
      CrossrefCrawler.crawl_all_journals fetch journals
        = ((journals.filter fun j => j.active).map
            (fetchResult fetch)).flatten) := by
  refine ⟨?_, ?_, ?_⟩
  · intro fetch feeds
    unfold RSSCrawler.crawl_all_feeds
    rw [foldlFetch_eq]
    simp
  · intro fetch A B err bs hA hB
    simp [RSSCrawler.crawl_all_feeds, fetchStep, hA, hB]
  · intro fetch journals
    unfold CrossrefCrawler.crawl_all_journals
    rw [foldlFetch_eq]
    simp

def c4A : FeedRow := { source := "A", url := "http://a" }

def c4B : FeedRow := { source := "B", url := "http://b" }

def c4Article : NewsArticle :=
  { title := "T", description := "", link := "http://t", source := "B"
    author := "", published := none, scraped_at := some 0, guid := "g" }

def c4Fetch : FeedRow → Except String (List NewsArticle) :=
  fun f => if f.source = "A" then .error "network error" else .ok [c4Article]

theorem C4_witness :
    RSSCrawler.crawl_all_feeds c4Fetch [c4A, c4B] = [c4Article] :=
  C4_source_isolation.2.1 c4Fetch c4A c4B "network error" [c4Article]
    rfl rfl

def c5Future : NewsArticle :=
  { title := "Future", description := "", link := "http://f", source := "S"
    author := "", published := none, scraped_at := some 86400, guid := "g" }

/-- C5 counterexample: the window filter of `generate_output_json` has no
upper bound, only `scraped_at >= now - days_back`.  With `now = 0`, a
store row stamped one day in the future (timestamp `86400`, outside the
claimed window `[now - 7d, now]`) is nevertheless emitted in the snapshot,
so the projection does not return exactly the subset with timestamp in
`[now - 7d, now]`. -/
theorem C5_counterexample :
    RSSCrawler.generate_output_json (some [c5Future]) 0 7
      = Except.ok
          { articles_count := 1, sources := [("S", [c5Future])]
            all_articles := [c5Future] }
    ∧ c5Future.scraped_at = some 86400 ∧ ¬((86400 : Int) ≤ 0) :=
  ⟨rfl, rfl, by decide⟩

/-- C5 amended: the projection emits exactly the subset of the store with
timestamp at or after `now - days_back` — records below the bound are
excluded, none at or above it is omitted, and no upper bound is applied,
so future-dated rows are also emitted.  A missing or empty store yields a
snapshot with record count 0, empty groups and an empty flat list, never
an error.  On the news path this assumes all stored timestamps parse
(otherwise the ISO8601 parse raises); the research path coerces
unparseable timestamps to `NaT`, which the window filter then excludes. -/
theorem C5_window_amended :
    (∀ (df : List NewsArticle) (now days_back : Int),
      (∀ x ∈ df, x.scraped_at.isSome) →
      ∃ o, RSSCrawler.generate_output_json (some df) now days_back
          = Except.ok o
        ∧ o.articles_count = o.all_articles.length
        ∧ ∀ r, r ∈ o.all_articles ↔ r ∈ df ∧
            ∃ t, r.scraped_at = some t ∧ now - days_back * secondsPerDay ≤ t)
    ∧ (∀ now days_back : Int,
        RSSCrawler.generate_output_json none now days_back
          = Except.ok
              { articles_count := 0, sources := [], all_articles := [] })
    ∧ (∀ (df : List CrossrefArticle) (now days_back : Int)
        (r : CrossrefArticle),
        r ∈ (CrossrefCrawler.generate_output_json (some df) now
            days_back).all_articles
          ↔ r ∈ df ∧
            ∃ t, r.scraped_at = some t ∧ now - days_back * secondsPerDay ≤ t)
    ∧ (∀ now days_back : Int,
        CrossrefCrawler.generate_output_json none now days_back
          = { articles_count := 0, period_days := days_back, journals := []
              all_articles := [] }) := by
  refine ⟨?_, fun _ _ => rfl, ?_, fun _ _ => rfl⟩
  · intro df now days_back h
    have hall : df.all (fun r => r.scraped_at.isSome) = true :=
      List.all_eq_true.mpr fun x hx => h x hx
    unfold RSSCrawler.generate_output_json
    dsimp only
    rw [if_pos hall]
    exact ⟨_, rfl, rfl, fun r => MemLog.mem_prune _ _ _ _⟩
  · intro df now days_back r
    exact MemLog.mem_prune _ _ _ _

theorem C5_witness :
    ∃ o, RSSCrawler.generate_output_json (some [c5Future]) 1000000 7
        = Except.ok o
      ∧ o.articles_count = o.all_articles.length
      ∧ ∀ r, r ∈ o.all_articles ↔ r ∈ [c5Future] ∧
          ∃ t, r.scraped_at = some t ∧
            1000000 - 7 * secondsPerDay ≤ t :=
  C5_window_amended.1 [c5Future] 1000000 7 (by decide)

theorem callApi_all_fail (responses : Nat → Option (List Int)) :
    ∀ (fuel attempt : Nat),
      (∀ a, a < fuel → responses (attempt + a) = none) →
      NewsFilter.call_anthropic_api responses fuel attempt = [] := by
  intro fuel
  induction fuel with
  | zero => intro attempt _; rfl
  | succ n ih =>
    intro attempt h
    unfold NewsFilter.call_anthropic_api
    have h0 : responses attempt = none := by
      simpa using h 0 (Nat.succ_pos n)
    rw [h0]
    refine ih (attempt + 1) fun a ha => ?_
    have := h (a + 1) (Nat.succ_lt_succ ha)
    rwa [show attempt + (a + 1) = attempt + 1 + a by omega] at this

/-- C6: the relevance gate is fail-closed.  When every one of the
`max_retries` (3) attempts for batch `b` fails or returns unparseable
content, the API wrapper returns the empty index list without raising (it
is a total function), so batch `b` contributes the empty list to the kept
records; when every batch exhausts its retries the whole filtered result
is empty. -/
theorem C6_gate_fail_closed :
    (∀ (responses : Nat → Nat → Option (List Int))
        (articles : List NewsArticle) (b : Nat),
      (∀ a, a < NewsFilter.max_retries → responses b a = none) →
      NewsFilter.call_anthropic_api (responses b) NewsFilter.max_retries 0
          = []
        ∧ (NewsFilter.perBatchKept responses articles).getD b [] = [])
    ∧ ∀ (responses : Nat → Nat → Option (List Int))
        (articles : List NewsArticle),
      (∀ bn a, a < NewsFilter.max_retries → responses bn a = none) →
      NewsFilter.filter_articles_with_ai_batched responses articles = [] := by
  constructor
  · intro responses articles b h
    have hcall : NewsFilter.call_anthropic_api (responses b)
        NewsFilter.max_retries 0 = [] := by
      refine callApi_all_fail (responses b) NewsFilter.max_retries 0
        fun a ha => ?_
      rw [Nat.zero_add]
      exact h a ha
    refine ⟨hcall, ?_⟩
    unfold NewsFilter.perBatchKept
    rw [List.getD_eq_getElem?_getD, List.getElem?_map, List.getElem?_enum]
    cases hb : (chunksOf NewsFilter.batch_size articles)[b]? with
    | none => rfl
    | some batch =>
      show NewsFilter.filterBatch batch
          (NewsFilter.call_anthropic_api (responses b)
            NewsFilter.max_retries 0) = []
      rw [hcall]
      rfl
  · intro responses articles h
    unfold NewsFilter.filter_articles_with_ai_batched
    by_cases he : articles = []
    · rw [if_pos he]
    · rw [if_neg he]
      refine List.flatten_eq_nil_iff.mpr fun l hl => ?_
      unfold NewsFilter.perBatchKept at hl
      obtain ⟨p, hp, hfl⟩ := List.mem_map.mp hl
      have hcall : NewsFilter.call_anthropic_api (responses p.1)
          NewsFilter.max_retries 0 = [] :=
        callApi_all_fail (responses p.1) NewsFilter.max_retries 0
          fun a ha => by rw [Nat.zero_add]; exact h p.1 a ha
      rw [← hfl, hcall]
      rfl

def c6Article : NewsArticle :=
  { title := "T", description := "", link := "http://t", source := "S"
    author := "", published := none, scraped_at := some 0, guid := "g" }

theorem C6_witness :
    NewsFilter.call_anthropic_api (fun _ => none) NewsFilter.max_retries 0
        = []
      ∧ (NewsFilter.perBatchKept (fun _ _ => none) [c6Article]).getD 0 []
        = [] :=
  C6_gate_fail_closed.1 (fun _ _ => none) [c6Article] 0 fun _ _ => rfl

/-- C7 counterexample: `_load_existing_urls` and `_load_existing_dois` end
with a generic handler that catches every exception, logs it, and returns
the empty key set, so a present-but-unreadable store is converted into an
empty memory log exactly as a missing file is — loading neither raises nor
aborts on a corrupt store. -/
theorem C7_counterexample :
    RSSCrawler.load_existing_urls ReadResult.corrupt = []
    ∧ RSSCrawler.load_existing_urls ReadResult.corrupt
      = RSSCrawler.load_existing_urls ReadResult.missing
    ∧ CrossrefCrawler.load_existing_dois ReadResult.corrupt = []
    ∧ CrossrefCrawler.load_existing_dois ReadResult.corrupt
      = CrossrefCrawler.load_existing_dois ReadResult.missing :=
  ⟨rfl, rfl, rfl, rfl⟩

/-- C7 amended: a missing or empty backing file yields an empty set of
known keys, and so does a present-but-corrupt one — loading is total,
never an error, and every known key comes from an actually-read row; the
run is not aborted and the corrupt history is simply not consulted. -/
theorem C7_load_degrades :
    (∀ (r : ReadResult (List NewsArticle)) (k : String),
      k ∈ RSSCrawler.load_existing_urls r →
      ∃ rows, r = ReadResult.ok rows ∧ k ∈ rows.map fun a => a.link)
    ∧ (∀ rows : List NewsArticle,
        RSSCrawler.load_existing_urls (ReadResult.ok rows)
          = rows.map fun a => a.link)
    ∧ (∀ (r : ReadResult (List CrossrefArticle)) (k : String),
      k ∈ CrossrefCrawler.load_existing_dois r →
      ∃ rows, r = ReadResult.ok rows ∧ k ∈ rows.map fun a => a.doi) := by
  refine ⟨?_, fun _ => rfl, ?_⟩
  · intro r k hk
    cases r with
    | missing => simp [RSSCrawler.load_existing_urls] at hk
    | empty => simp [RSSCrawler.load_existing_urls] at hk
    | corrupt => simp [RSSCrawler.load_existing_urls] at hk
    | ok rows => exact ⟨rows, rfl, hk⟩
  · intro r k hk
    cases r with
    | missing => simp [CrossrefCrawler.load_existing_dois] at hk
    | empty => simp [CrossrefCrawler.load_existing_dois] at hk
    | corrupt => simp [CrossrefCrawler.load_existing_dois] at hk
    | ok rows => exact ⟨rows, rfl, hk⟩

def c7Row : NewsArticle :=
  { title := "T", description := "", link := "http://k", source := "S"
    author := "", published := none, scraped_at := some 0, guid := "g" }

theorem C7_witness :
    ∃ rows, ReadResult.ok [c7Row] = ReadResult.ok rows
      ∧ "http://k" ∈ rows.map fun a => a.link :=
  C7_load_degrades.1 (ReadResult.ok [c7Row]) "http://k" (by decide)

theorem process_entry_title_eq (src : String) (ex : List String)
    (cutoff now : Int) (e : RSSEntry) (a : NewsArticle) :
    RSSCrawler.process_entry src ex cutoff now e = some a →
    a.title = RSSCrawler.get_entry_title e := by
  unfold RSSCrawler.process_entry
  cases RSSCrawler.get_entry_url e with
  | none => intro h; exact Option.noConfusion h
  | some url =>
    intro h
    dsimp only at h
    split at h
    · exact Option.noConfusion h
    · split at h
      · exact Option.noConfusion h
      · split at h
        · have ha := (Option.some.injEq _ _).mp h
          rw [← ha]
        · exact Option.noConfusion h

def c8NoTitle : RSSEntry :=
  { title := none, link := some "http://example.org/a", published := none
    description := "", author := "", guid := none }

/-- C8 counterexample: on the RSS path a raw item with no title attribute
is not dropped — `_get_entry_title` substitutes the placeholder `Untitled`
and the entry, having a valid link, enters the crawl result. -/
theorem C8_counterexample :
    (RSSCrawler.process_entry "Src" [] 0 100 c8NoTitle).map
      (fun a => a.title) = some "Untitled" := by decide

/-- C8 amended: only the scholarly path drops records whose title cannot
be resolved (`_extract_article_data` returns nothing when the extracted
title is empty).  On the RSS path a missing title never causes rejection:
any article produced from a title-less entry carries the placeholder
`Untitled`; an entry is only dropped over its title when a present,
nonempty raw title cleans to the empty string (whitespace-only). -/
theorem C8_title_required :
    (∀ (w : CrossrefWork) (jn ja issn : String) (now : Int),
      CrossrefCrawler.extract_title w = "" →
      CrossrefCrawler.extract_article_data w jn ja issn now = none)
    ∧ (∀ (src : String) (ex : List String) (cutoff now : Int) (e : RSSEntry)
        (a : NewsArticle),
      e.title = none →
      RSSCrawler.process_entry src ex cutoff now e = some a →
      a.title = "Untitled")
    ∧ (∀ (src : String) (ex : List String) (cutoff now : Int) (e : RSSEntry)
        (t : String),
      e.title = some t → t ≠ "" → clean_text t = "" →
      RSSCrawler.process_entry src ex cutoff now e = none) := by
  refine ⟨?_, ?_, ?_⟩
  · intro w jn ja issn now h
    simp [CrossrefCrawler.extract_article_data, h]
  · intro src ex cutoff now e a hnone hsome
    have := process_entry_title_eq src ex cutoff now e a hsome
    rw [this]
    unfold RSSCrawler.get_entry_title
    rw [hnone]
  · intro src ex cutoff now e t ht htne hclean
    have htitle : RSSCrawler.get_entry_title e = "" := by
      unfold RSSCrawler.get_entry_title
      rw [ht]
      dsimp only
      rw [if_neg htne]
      exact hclean
    unfold RSSCrawler.process_entry
    cases RSSCrawler.get_entry_url e with
    | none => rfl
    | some url =>
      dsimp only
      simp [htitle]

def c8Work : CrossrefWork :=
  { doi := "10.1/x", title := .list [], author := [], published_online := none
    published_print := none, created := none, abstract := "", url := ""
    volume := "", issue := "", pages := "", subject := [], work_type := "" }

theorem C8_witness :
    CrossrefCrawler.extract_article_data c8Work "J" "J." "1234-5678" 0
      = none :=
  C8_title_required.1 c8Work "J" "J." "1234-5678" 0 (by decide)

/-- C9: fail-open on uncertain age, on both the feedparser path and the
requests fallback of the news crawler.  An entry passing the URL and title
gates whose publication timestamp cannot be resolved is kept in the crawl
result, while an entry with a resolved timestamp strictly older than the
cutoff is discarded no matter what else it carries. -/
theorem C9_fail_open :
    (∀ (src : String) (ex : List String) (cutoff now : Int) (e : RSSEntry)
        (url : String),
      RSSCrawler.get_entry_url e = some url → url ≠ "" → url ∉ ex →
      e.published = none → RSSCrawler.get_entry_title e ≠ "" →
      (RSSCrawler.process_entry src ex cutoff now e).isSome)
    ∧ (∀ (src : String) (ex : List String) (cutoff now : Int) (e : RSSEntry)
        (d : Int),
      e.published = some d → d < cutoff →
      RSSCrawler.process_entry src ex cutoff now e = none)
    ∧ (∀ (src : String) (ex : List String) (cutoff now : Int) (it : XmlItem)
        (title link : String),
      it.title = some title → it.link = some link → link ≠ "" → link ∉ ex →
      it.pubDate = none →
      (RSSCrawler.process_xml_item src ex cutoff now it).isSome)
    ∧ (∀ (src : String) (ex : List String) (cutoff now : Int) (it : XmlItem)
        (d : Int),
      it.pubDate = some d → d < cutoff →
      RSSCrawler.process_xml_item src ex cutoff now it = none) := by
  refine ⟨?_, ?_, ?_, ?_⟩
  · intro src ex cutoff now e url hurl hne hnin hpub htitle
    simp [RSSCrawler.process_entry, hurl, hne, hnin, hpub, htitle]
  · intro src ex cutoff now e d hpub hd
    unfold RSSCrawler.process_entry
    cases RSSCrawler.get_entry_url e with
    | none => rfl
    | some url => simp [hpub, hd]
  · intro src ex cutoff now it title link htitle hlink hne hnin hpub
    simp [RSSCrawler.process_xml_item, htitle, hlink, hne, hnin, hpub]
  · intro src ex cutoff now it d hpub hd
    unfold RSSCrawler.process_xml_item
    cases it.title with
    | none => rfl
    | some t =>
      cases it.link with
      | none => rfl
      | some l => simp [hpub, hd]

def c9Undated : RSSEntry :=
  { title := some "T", link := some "http://u", published := none
    description := "", author := "", guid := none }

theorem C9_witness :
    (RSSCrawler.process_entry "S" [] 0 100 c9Undated).isSome
    ∧ RSSCrawler.process_entry "S" []
        100 200 { c9Undated with published := some 5 } = none :=
  ⟨C9_fail_open.1 "S" [] 0 100 c9Undated "http://u" (by decide) (by decide)
      (by decide) rfl (by decide),
    C9_fail_open.2.1 "S" [] 100 200 { c9Undated with published := some 5 } 5
      rfl (by decide)⟩

/-- C10: a row already persisted in the memory log whose `scraped_at`
fails to parse as a datetime (coerced to `NaT` by the loader) can never
satisfy the `>= cutoff` retention comparison and is evicted from the store
by the next save with new articles, whatever `now` is — even though such a
row is not actually older than the horizon. -/
theorem C10_unparseable_evicted :
    (∀ (store articles : List NewsArticle) (now : Int) (p : NewsArticle),
      articles ≠ [] → p ∈ store → p.scraped_at = none →
      p ∉ RSSCrawler.save_articles store articles now)
    ∧ (∀ (store articles : List CrossrefArticle) (now : Int)
        (p : CrossrefArticle),
      articles ≠ [] → p ∈ store → p.scraped_at = none →
      p ∉ CrossrefCrawler.save_articles store articles now) := by
  constructor
  · intro store articles now p h hmem hnone hin
    unfold RSSCrawler.save_articles at hin
    rw [if_neg h] at hin
    obtain ⟨_, t, hsome, _⟩ := (MemLog.mem_mergeSave _ _ _ _ _ p).mp hin
    rw [hnone] at hsome
    exact Option.noConfusion hsome
  · intro store articles now p h hmem hnone hin
    unfold CrossrefCrawler.save_articles at hin
    rw [if_neg h] at hin
    obtain ⟨_, t, hsome, _⟩ := (MemLog.mem_mergeSave _ _ _ _ _ p).mp hin
    rw [hnone] at hsome
    exact Option.noConfusion hsome

def c10Bad : NewsArticle :=
  { title := "Bad", description := "", link := "http://bad", source := "S"
    author := "", published := none, scraped_at := none, guid := "g" }

def c10Good : NewsArticle :=
  { title := "Good", description := "", link := "http://good", source := "S"
    author := "", published := none, scraped_at := some 0, guid := "g" }

theorem C10_witness :
    c10Bad ∉ RSSCrawler.save_articles [c10Bad] [c10Good] 0 :=
  C10_unparseable_evicted.1 [c10Bad] [c10Good] 0 c10Bad (by decide)
    (by decide) rfl
